import Mathlib

/-!
A verification development for the Courtify Mini API availability endpoint
(`POST /api/availability/check` in `server.js`).

JS strings are modelled as lists of character codes (`JsStr`).  The JS `NaN`
value that `Number`, `toMinutes` or `Math.max` can produce is modelled with
`Option Nat` (`none` = NaN) together with NaN-aware comparison operators, so
the embedded functions follow the source even on malformed inputs.
-/

/-- A JS string, as its list of character codes. -/
abbrev JsStr := List Nat

/-- Code-point list of a Lean string literal (all literals in this file are
rendered exactly as the source spells them). -/
def str (s : String) : JsStr := s.data.map Char.toNat

/-- `\d` of the JS regexes: an ASCII digit code (48 = `0` … 57 = `9`). -/
def isDigitCode (c : Nat) : Bool := decide (48 ≤ c ∧ c ≤ 57)

/-- JS `Number(s)` restricted to the string shapes this server feeds it:
the empty string coerces to 0, a nonempty all-digit string to its decimal
value, and anything else to NaN (`none`). -/
def jsNumber (s : JsStr) : Option Nat :=
  if s = [] then some 0
  else if s.all isDigitCode then some (s.foldl (fun a c => a * 10 + (c - 48)) 0)
  else none

/-- JS `s.split(':')`, accumulator form (58 is the code of `:`). -/
def splitColonAux (acc : List Nat) : JsStr → List JsStr
  | [] => [acc.reverse]
  | c :: rest =>
    if c = 58 then acc.reverse :: splitColonAux [] rest
    else splitColonAux (c :: acc) rest

/-- JS `s.split(':')`. -/
def splitColon (s : JsStr) : List JsStr := splitColonAux [] s

/-- `toMinutes` (part_001, lines 25-28): split on `:`, apply `Number` to the
first two parts, return `h * 60 + m`; `none` models the NaN produced when a
part is missing or unparseable. -/
def toMinutes (s : JsStr) : Option Nat :=
  match splitColon s with
  | h :: m :: _ =>
    match jsNumber h, jsNumber m with
    | some hv, some mv => some (hv * 60 + mv)
    | _, _ => none
  | _ => none

/-- `isValidDate` (lines 29-31): the regex `^\d{4}-\d{2}-\d{2}$`.
A pure pattern test — no calendar-validity check. 45 is the code of `-`. -/
def isValidDate (s : JsStr) : Bool :=
  match s with
  | [y1, y2, y3, y4, s1, m1, m2, s2, d1, d2] =>
    isDigitCode y1 && isDigitCode y2 && isDigitCode y3 && isDigitCode y4 &&
    s1 == 45 && isDigitCode m1 && isDigitCode m2 &&
    s2 == 45 && isDigitCode d1 && isDigitCode d2
  | _ => false

/-- `isValidTime` (lines 32-36): the regex `^\d{2}:\d{2}$`, then the parsed
hour must be ≤ 23 and minute ≤ 59 (the `≥ 0` half of the JS check is vacuous
for digit strings). -/
def isValidTime (s : JsStr) : Bool :=
  match s with
  | [h1, h2, c, m1, m2] =>
    isDigitCode h1 && isDigitCode h2 && c == 58 && isDigitCode m1 && isDigitCode m2 &&
    decide ((h1 - 48) * 10 + (h2 - 48) ≤ 23) && decide ((m1 - 48) * 10 + (m2 - 48) ≤ 59)
  | _ => false

/-- JS `<` on numbers that may be NaN: any comparison with NaN is false. -/
def nanLt : Option Nat → Option Nat → Bool
  | some a, some b => decide (a < b)
  | _, _ => false

/-- JS `<=` on numbers that may be NaN. -/
def nanLe : Option Nat → Option Nat → Bool
  | some a, some b => decide (a ≤ b)
  | _, _ => false

/-- JS `Math.max`, which returns NaN when an argument is NaN. -/
def jsMax : Option Nat → Option Nat → Option Nat
  | some a, some b => some (max a b)
  | _, _ => none

/-- `overlaps` (lines 37-39): `aStart < bEnd && bStart < aEnd`. -/
def overlaps (aStart aEnd bStart bEnd : Option Nat) : Bool :=
  nanLt aStart bEnd && nanLt bStart aEnd

/-- The decimal digit codes of `n` (JS `String(n)` for a natural number),
with explicit fuel for the recursion on `n / 10`. -/
def natDigitsAux : Nat → Nat → List Nat
  | 0, _ => []
  | fuel + 1, n =>
    if n < 10 then [48 + n]
    else natDigitsAux fuel (n / 10) ++ [48 + n % 10]

/-- The decimal digit codes of `n`. -/
def natDigits (n : Nat) : List Nat := natDigitsAux (n + 1) n

/-- JS `.padStart(2, '0')`. -/
def pad2 (s : JsStr) : JsStr :=
  if s.length < 2 then List.replicate (2 - s.length) 48 ++ s else s

/-- `fmt` (lines 40-44) on a non-NaN minute count:
`HH:MM` from minutes since midnight. -/
def fmt (mins : Nat) : JsStr :=
  pad2 (natDigits (mins / 60)) ++ 58 :: pad2 (natDigits (mins % 60))

/-- `fmt` applied to a possibly-NaN value (`String(NaN)` is `"NaN"`, so
`fmt(NaN)` renders as `"NaN:NaN"`); unreachable on validated paths. -/
def fmtO : Option Nat → JsStr
  | some n => fmt n
  | none => str "NaN:NaN"

/-- A stored booking `{ start, end }` of HH:MM strings (the source field
`end` is a Lean keyword, rendered `endT`). -/
structure Booking where
  start : JsStr
  endT : JsStr
deriving DecidableEq, Repr

/-- A facility (lines 11-21): open hours as the stored HH:MM strings and the
per-date booking lists, an association list mirroring the JS object.
`id`, `name` and `hourlyRate` are not read by the availability endpoint. -/
structure Facility where
  openStart : JsStr
  openEnd : JsStr
  bookings : List (JsStr × List Booking)
deriving DecidableEq, Repr

/-- The in-memory facility registry (the JS object `facilities`). -/
abbrev Registry := List (JsStr × Facility)

/-- `facilities[facilityId]` (line 67). -/
def facilityOf (facs : Registry) (fid : JsStr) : Option Facility :=
  (facs.find? (fun p => p.1 == fid)).map Prod.snd

/-- `fac.bookings[date] || []` (line 79). -/
def dayBookingsOf (fac : Facility) (date : JsStr) : List Booking :=
  match fac.bookings.find? (fun p => p.1 == date) with
  | some p => p.2
  | none => []

/-- `Number(durationMinutes)` (line 62): an integer value, or NaN / a
non-integer number (`notInt`), both of which fail `Number.isInteger`. -/
inductive RawDur where
  | int (n : Int)
  | notInt
deriving DecidableEq, Repr

/-- The request body as the handler destructures it (line 51).  A string
field is `none` when absent or of a non-string type (both fail the same
falsy/typeof guard); `some []` is the (falsy) empty string.  `extra` holds
any further fields of the JSON body, which the destructuring never reads. -/
structure RawBody where
  facilityId : Option JsStr
  date : Option JsStr
  startTime : Option JsStr
  durationMinutes : RawDur
  extra : List (JsStr × JsStr)
deriving DecidableEq, Repr

/-- The `nextAvailable` object (lines 101 and 107). -/
structure NextAvail where
  startTime : JsStr
  endTime : JsStr
deriving DecidableEq, Repr

/-- The success payload (lines 84-90, with the two optional fields attached
at lines 93, 101 and 107). -/
structure CheckResponse where
  facilityId : JsStr
  date : JsStr
  startTime : JsStr
  endTime : JsStr
  isAvailable : Bool
  conflict : Option Booking
  nextAvailable : Option NextAvail
deriving DecidableEq, Repr

/-- The handler's outcome: HTTP 400 / 404 / 422 with a JSON message, or 200
with the response payload. -/
inductive Outcome where
  | badRequest (msg : JsStr)
  | notFound (msg : JsStr)
  | unprocessable (msg : JsStr)
  | ok (resp : CheckResponse)
deriving DecidableEq, Repr

/-- The sort key of the comparator at line 96
(`toMinutes(a.start) - toMinutes(b.start)`); a NaN key makes the JS sort
order implementation-defined, modelled here as key 0. -/
def sortKey (b : Booking) : Nat := (toMinutes b.start).getD 0

/-- The comparator relation of line 96: ascending by parsed start time. -/
def bookingLE (a b : Booking) : Prop := sortKey a ≤ sortKey b

instance : DecidableRel bookingLE := fun _ _ => Nat.decLe _ _

/-- `dayBookings.slice().sort(...)` (line 96): a stable sort of a copy of
the stored list, ascending by start time (ES2019 requires `Array.sort` to
be stable, so any stable sort by the comparator key models it). -/
def sortedBookings (day : List Booking) : List Booking :=
  day.insertionSort bookingLE

/-- The next-available search (lines 97-108): walk the sorted bookings with
cursor `cur`; the first gap that fits is returned (lines 100-103), else the
cursor advances past the booking (line 104); after the loop the tail slot is
returned iff it still fits before closing (lines 106-108). -/
def searchSlots (dur : Nat) (openEnd : Option Nat) : Option Nat → List Booking → Option NextAvail
  | cur, [] =>
    if nanLe (cur.map (· + dur)) openEnd then
      some ⟨fmtO cur, fmtO (cur.map (· + dur))⟩
    else none
  | cur, b :: rest =>
    if nanLe (cur.map (· + dur)) (toMinutes b.start) then
      some ⟨fmtO cur, fmtO (cur.map (· + dur))⟩
    else
      searchSlots dur openEnd (jsMax cur (toMinutes b.endT)) rest

/-- Lines 70-111: the availability engine, applied after field validation
and facility lookup.  `dur` is the validated integer duration. -/
def checkCore (fac : Facility) (fid date stime : JsStr) (dur : Nat) : Outcome :=
  let openStart := toMinutes fac.openStart
  let openEnd := toMinutes fac.openEnd
  let start := toMinutes stime
  let endv := start.map (· + dur)
  if nanLt start openStart || nanLt openEnd endv then
    Outcome.unprocessable
      (str "Requested time outside open hours " ++ fac.openStart ++ str "-" ++ fac.openEnd)
  else
    let day := dayBookingsOf fac date
    match day.find? (fun b => overlaps start endv (toMinutes b.start) (toMinutes b.endT)) with
    | none => Outcome.ok ⟨fid, date, stime, fmtO endv, true, none, none⟩
    | some c =>
      Outcome.ok ⟨fid, date, stime, fmtO endv, false, some c,
        searchSlots dur openEnd (jsMax start openStart) (sortedBookings day)⟩

/-- Lines 62-68 and onward: the duration guard
(`!Number.isInteger(dur) || dur < 30`), then the facility lookup and the
engine.  One stage of the handler's sequential validation chain. -/
def checkWithDur (facs : Registry) (fid date stime : JsStr) (du : RawDur) : Outcome :=
  match du with
  | RawDur.notInt => Outcome.badRequest (str "durationMinutes must be integer ≥ 30")
  | RawDur.int n =>
    if n < 30 then Outcome.badRequest (str "durationMinutes must be integer ≥ 30")
    else
      match facilityOf facs fid with
      | none => Outcome.notFound (str "facility not found")
      | some fac => checkCore fac fid date stime n.toNat

/-- Lines 59-61 and onward: the start-time guard
(`!startTime || !isValidTime(startTime)`), then the rest of the handler. -/
def checkWithTime (facs : Registry) (fid date : JsStr) (stO : Option JsStr)
    (du : RawDur) : Outcome :=
  match stO with
  | none => Outcome.badRequest (str "startTime must be HH:MM")
  | some stime =>
    if !isValidTime stime then Outcome.badRequest (str "startTime must be HH:MM")
    else checkWithDur facs fid date stime du

/-- Lines 56-58 and onward: the date guard (`!date || !isValidDate(date)`),
then the rest of the handler. -/
def checkWithDate (facs : Registry) (fid : JsStr) (dateO stO : Option JsStr)
    (du : RawDur) : Outcome :=
  match dateO with
  | none => Outcome.badRequest (str "date must be YYYY-MM-DD")
  | some date =>
    if !isValidDate date then Outcome.badRequest (str "date must be YYYY-MM-DD")
    else checkWithTime facs fid date stO du

/-- The full `POST /api/availability/check` handler (lines 49-115): the four
field validations in source order (staged through `checkWithDate`,
`checkWithTime` and `checkWithDur`), the facility lookup, then the engine. -/
def checkHandler (facs : Registry) (b : RawBody) : Outcome :=
  match b.facilityId with
  | none => Outcome.badRequest (str "facilityId is required")
  | some fid =>
    if fid = [] then Outcome.badRequest (str "facilityId is required")
    else checkWithDate facs fid b.date b.startTime b.durationMinutes

/-- The handler as a state transformer over the registry.  The source never
assigns into `facilities` — in particular line 96 sorts a `slice()` copy of
the stored booking list — so the registry left behind is the one given. -/
def checkApp (facs : Registry) (b : RawBody) : Registry × Outcome :=
  (facs, checkHandler facs b)

/-- The seeded facility (lines 11-21). -/
def sportsplex : Facility :=
  { openStart := str "08:00"
    openEnd := str "22:00"
    bookings :=
      [(str "2025-10-10", [⟨str "10:00", str "11:30"⟩]),
       (str "2025-10-11", [⟨str "15:00", str "16:00"⟩])] }

/-- The seeded registry (lines 10-22). -/
def facilities : Registry := [(str "courtify-sportsplex", sportsplex)]

/-- Claim-side restatement (spec §4.2 step 5) of the next-available policy:
first-fit with an advancing cursor over `(start, end)` minute pairs taken in
ascending start order, falling back to the tail slot before closing. -/
def firstFitSpec (dur openEnd : Nat) : Nat → List (Nat × Nat) → Option (Nat × Nat)
  | cursor, [] => if cursor + dur ≤ openEnd then some (cursor, cursor + dur) else none
  | cursor, p :: rest =>
    if cursor + dur ≤ p.1 then some (cursor, cursor + dur)
    else firstFitSpec dur openEnd (max cursor p.2) rest

/-- The parsed `(start, end)` minute pair of a booking (total via `getD`;
the claims that use it assume both fields parse). -/
def bookingPair (b : Booking) : Nat × Nat :=
  ((toMinutes b.start).getD 0, (toMinutes b.endT).getD 0)

/-- Gregorian leap-year rule (claim-side; the source has no calendar check). -/
def isLeapYear (y : Nat) : Bool := (y % 4 == 0 && y % 100 != 0) || y % 400 == 0

/-- Days in a month of the Gregorian calendar (claim-side). -/
def daysInMonth (y m : Nat) : Nat :=
  if m = 2 then (if isLeapYear y then 29 else 28)
  else if m = 4 || m = 6 || m = 9 || m = 11 then 30
  else 31

/-- Claim-side (spec §4.1 check 2): the date string denotes a real calendar
date — pattern `YYYY-MM-DD` with month 1-12 and day within that month. -/
def isRealCalendarDate (s : JsStr) : Bool :=
  match s with
  | [y1, y2, y3, y4, _, mo1, mo2, _, d1, d2] =>
    isValidDate s &&
    (let y := (((y1 - 48) * 10 + (y2 - 48)) * 10 + (y3 - 48)) * 10 + (y4 - 48)
     let mo := (mo1 - 48) * 10 + (mo2 - 48)
     let d := (d1 - 48) * 10 + (d2 - 48)
     decide (1 ≤ mo) && decide (mo ≤ 12) && decide (1 ≤ d) && decide (d ≤ daysInMonth y mo))
  | _ => false

/-- A facility used to probe the next-available search when a booking starts
after closing time: open 08:00-22:00, bookings 09:00-21:30 and 23:00-23:30. -/
def facilityLateBooking : Facility :=
  { openStart := str "08:00", openEnd := str "22:00",
    bookings := [(str "2025-10-12", [⟨str "09:00", str "21:30"⟩, ⟨str "23:00", str "23:30"⟩])] }

/-- A facility whose stored booking list is not in start-time order:
10:00-11:00 stored before 09:00-11:00. -/
def facilityUnsorted : Facility :=
  { openStart := str "08:00", openEnd := str "22:00",
    bookings := [(str "2025-10-12", [⟨str "10:00", str "11:00"⟩, ⟨str "09:00", str "11:00"⟩])] }

/-! ## Helper lemmas on the string/minutes helpers -/

theorem isDigitCode_iff (c : Nat) : isDigitCode c = true ↔ 48 ≤ c ∧ c ≤ 57 := by
  simp [isDigitCode]

theorem splitColon_hhmm (a b c d : Nat)
    (ha : a ≠ 58) (hb : b ≠ 58) (hc : c ≠ 58) (hd : d ≠ 58) :
    splitColon [a, b, 58, c, d] = [[a, b], [c, d]] := by
  simp [splitColon, splitColonAux, ha, hb, hc, hd]

theorem jsNumber_two (a b : Nat)
    (ha : 48 ≤ a ∧ a ≤ 57) (hb : 48 ≤ b ∧ b ≤ 57) :
    jsNumber [a, b] = some ((a - 48) * 10 + (b - 48)) := by
  unfold jsNumber
  rw [if_neg (by simp), if_pos]
  · simp
  · simp only [List.all_cons, List.all_nil, Bool.and_eq_true, isDigitCode_iff]
    exact ⟨ha, hb, trivial⟩

theorem toMinutes_digits (a b c d : Nat)
    (ha : 48 ≤ a ∧ a ≤ 57) (hb : 48 ≤ b ∧ b ≤ 57)
    (hc : 48 ≤ c ∧ c ≤ 57) (hd : 48 ≤ d ∧ d ≤ 57) :
    toMinutes [a, b, 58, c, d] =
      some (((a - 48) * 10 + (b - 48)) * 60 + ((c - 48) * 10 + (d - 48))) := by
  simp [toMinutes, splitColon_hhmm a b c d (by omega) (by omega) (by omega) (by omega),
    jsNumber_two a b ha hb, jsNumber_two c d hc hd]

theorem natDigitsAux_small (fuel n : Nat) (hf : 0 < fuel) (hn : n < 10) :
    natDigitsAux fuel n = [48 + n] := by
  cases fuel with
  | zero => omega
  | succ f => simp [natDigitsAux, hn]

theorem natDigits_two_digit (n : Nat) (h : n ≤ 99) :
    natDigits n = if n < 10 then [48 + n] else [48 + n / 10, 48 + n % 10] := by
  by_cases hn : n < 10
  · rw [if_pos hn]
    exact natDigitsAux_small _ _ (by omega) hn
  · rw [if_neg hn]
    unfold natDigits natDigitsAux
    rw [if_neg hn, natDigitsAux_small n (n / 10) (by omega) (by omega)]
    rfl

theorem pad2_natDigits (n : Nat) (h : n ≤ 99) :
    pad2 (natDigits n) = [48 + n / 10, 48 + n % 10] := by
  rw [natDigits_two_digit n h]
  by_cases hn : n < 10
  · rw [if_pos hn]
    simp [pad2]
    omega
  · rw [if_neg hn]
    simp [pad2]

theorem fmt_eq_digits (m : Nat) (h : m ≤ 5999) :
    fmt m = [48 + m / 60 / 10, 48 + m / 60 % 10, 58, 48 + m % 60 / 10, 48 + m % 60 % 10] := by
  unfold fmt
  rw [pad2_natDigits (m / 60) (by omega), pad2_natDigits (m % 60) (by omega)]
  rfl

theorem toMinutes_fmt (m : Nat) (h : m ≤ 1439) : toMinutes (fmt m) = some m := by
  rw [fmt_eq_digits m (by omega)]
  rw [toMinutes_digits _ _ _ _ (by omega) (by omega) (by omega) (by omega)]
  congr 1
  omega

theorem isValidTime_shape (s : JsStr) (h : isValidTime s = true) :
    ∃ a b c d, s = [a, b, 58, c, d] ∧
      (48 ≤ a ∧ a ≤ 57) ∧ (48 ≤ b ∧ b ≤ 57) ∧ (48 ≤ c ∧ c ≤ 57) ∧ (48 ≤ d ∧ d ≤ 57) ∧
      (a - 48) * 10 + (b - 48) ≤ 23 ∧ (c - 48) * 10 + (d - 48) ≤ 59 := by
  unfold isValidTime at h
  split at h
  case h_2 => exact absurd h (by simp)
  case h_1 a b c d e =>
    simp only [Bool.and_eq_true, isDigitCode_iff, beq_iff_eq, decide_eq_true_eq] at h
    obtain ⟨⟨⟨⟨⟨⟨ha, hb⟩, hc⟩, hd⟩, he⟩, hh⟩, hm⟩ := h
    exact ⟨a, b, d, e, by rw [hc], ha, hb, hd, he, hh, hm⟩

theorem fmt_toMinutes (s : JsStr) (h : isValidTime s = true) :
    (toMinutes s).map fmt = some s := by
  obtain ⟨a, b, c, d, rfl, ha, hb, hc, hd, hh, hm⟩ := isValidTime_shape s h
  rw [toMinutes_digits a b c d ha hb hc hd, Option.map_some', fmt_eq_digits _ (by omega)]
  have e1 : (((a - 48) * 10 + (b - 48)) * 60 + ((c - 48) * 10 + (d - 48))) / 60 =
      (a - 48) * 10 + (b - 48) := by omega
  have e2 : (((a - 48) * 10 + (b - 48)) * 60 + ((c - 48) * 10 + (d - 48))) % 60 =
      (c - 48) * 10 + (d - 48) := by omega
  rw [e1, e2]
  have f1 : ((a - 48) * 10 + (b - 48)) / 10 = a - 48 := by omega
  have f2 : ((a - 48) * 10 + (b - 48)) % 10 = b - 48 := by omega
  have f3 : ((c - 48) * 10 + (d - 48)) / 10 = c - 48 := by omega
  have f4 : ((c - 48) * 10 + (d - 48)) % 10 = d - 48 := by omega
  rw [f1, f2, f3, f4]
  have g1 : 48 + (a - 48) = a := by omega
  have g2 : 48 + (b - 48) = b := by omega
  have g3 : 48 + (c - 48) = c := by omega
  have g4 : 48 + (d - 48) = d := by omega
  rw [g1, g2, g3, g4]

/-! ## NaN-aware comparison lemmas -/

theorem nanLe_none_left (x : Option Nat) : nanLe none x = false := by cases x <;> rfl

theorem nanLe_none_right (x : Option Nat) : nanLe x none = false := by cases x <;> rfl

theorem nanLt_none_left (x : Option Nat) : nanLt none x = false := by cases x <;> rfl

theorem nanLt_none_right (x : Option Nat) : nanLt x none = false := by cases x <;> rfl

theorem jsMax_none_right (x : Option Nat) : jsMax x none = none := by cases x <;> rfl

theorem jsMax_none_left (x : Option Nat) : jsMax none x = none := by cases x <;> rfl

theorem nanLt_eq_true_iff (x y : Option Nat) :
    nanLt x y = true ↔ ∃ a b, x = some a ∧ y = some b ∧ a < b := by
  cases x <;> cases y <;> simp [nanLt]

theorem nanLe_eq_true_iff (x y : Option Nat) :
    nanLe x y = true ↔ ∃ a b, x = some a ∧ y = some b ∧ a ≤ b := by
  cases x <;> cases y <;> simp [nanLe]

/-! ## Sorting lemmas -/

instance : IsTotal Booking bookingLE := ⟨fun a b => Nat.le_total (sortKey a) (sortKey b)⟩

instance : IsTrans Booking bookingLE := ⟨fun _ _ _ => Nat.le_trans⟩

theorem sortedBookings_pairwise (day : List Booking) :
    List.Pairwise bookingLE (sortedBookings day) :=
  List.sorted_insertionSort bookingLE day

theorem sortedBookings_perm (day : List Booking) : (sortedBookings day).Perm day :=
  List.perm_insertionSort bookingLE day

theorem mem_sortedBookings (day : List Booking) (b : Booking) :
    b ∈ sortedBookings day ↔ b ∈ day :=
  (sortedBookings_perm day).mem_iff

/-! ## Reduction of the engine under a validated, in-hours request -/

theorem checkCore_in_hours (fac : Facility) (fid date stime : JsStr) (dur os oe s : Nat)
    (hos : toMinutes fac.openStart = some os) (hoe : toMinutes fac.openEnd = some oe)
    (hst : toMinutes stime = some s) (h1 : os ≤ s) (h2 : s + dur ≤ oe) :
    checkCore fac fid date stime dur =
      match (dayBookingsOf fac date).find?
          (fun b => overlaps (some s) (some (s + dur)) (toMinutes b.start) (toMinutes b.endT)) with
      | none => Outcome.ok ⟨fid, date, stime, fmt (s + dur), true, none, none⟩
      | some c => Outcome.ok ⟨fid, date, stime, fmt (s + dur), false, some c,
          searchSlots dur (some oe) (some (max s os))
            (sortedBookings (dayBookingsOf fac date))⟩ := by
  have hlt1 : ¬ s < os := by omega
  have hlt2 : ¬ oe < s + dur := by omega
  simp [checkCore, hos, hoe, hst, nanLt, jsMax, fmtO, hlt1, hlt2]

/-! ## Soundness of the next-available search -/

theorem searchSlots_none_cursor (dur : Nat) (oe' : Option Nat) (day : List Booking) :
    searchSlots dur oe' none day = none := by
  induction day with
  | nil => simp [searchSlots, nanLe_none_left]
  | cons b rest ih => simp [searchSlots, nanLe_none_left, jsMax_none_left, ih]

theorem searchSlots_sound (dur oe : Nat) (day : List Booking) :
    ∀ (c : Nat) (na : NextAvail),
      List.Pairwise bookingLE day →
      searchSlots dur (some oe) (some c) day = some na →
      ∃ cs, c ≤ cs ∧ na = ⟨fmt cs, fmt (cs + dur)⟩ ∧
        (∀ b ∈ day,
          overlaps (some cs) (some (cs + dur)) (toMinutes b.start) (toMinutes b.endT) = false) ∧
        ((∀ b ∈ day, ∀ v, toMinutes b.start = some v → v ≤ oe) → cs + dur ≤ oe) := by
  induction day with
  | nil =>
    intro c na _ h
    simp only [searchSlots, Option.map_some'] at h
    by_cases hle : nanLe (some (c + dur)) (some oe) = true
    · rw [if_pos hle] at h
      injection h with h'
      refine ⟨c, Nat.le_refl c, ?_, by simp, fun _ => ?_⟩
      · rw [← h']; rfl
      · simpa [nanLe] using hle
    · rw [if_neg hle] at h; exact absurd h (by simp)
  | cons b rest ih =>
    intro c na hsort h
    obtain ⟨hb, htail⟩ := List.pairwise_cons.mp hsort
    simp only [searchSlots, Option.map_some'] at h
    by_cases hle : nanLe (some (c + dur)) (toMinutes b.start) = true
    · rw [if_pos hle] at h
      injection h with h'
      obtain ⟨x, bs, hx, hbs, hcd⟩ := (nanLe_eq_true_iff _ _).mp hle
      injection hx with hx; subst hx
      refine ⟨c, Nat.le_refl c, ?_, ?_, ?_⟩
      · rw [← h']; rfl
      · intro x hx
        rcases List.mem_cons.mp hx with rfl | hx
        · have : ¬ bs < c + dur := by omega
          simp [overlaps, hbs, nanLt, this]
        · have hkey : sortKey b ≤ sortKey x := hb x hx
          cases hxs : toMinutes x.start with
          | none => simp [overlaps, hxs, nanLt_none_left]
          | some v =>
            have hv : bs ≤ v := by
              have h1 : sortKey b = bs := by simp [sortKey, hbs]
              have h2 : sortKey x = v := by simp [sortKey, hxs]
              omega
            have : ¬ v < c + dur := by omega
            simp [overlaps, hxs, nanLt, this]
      · intro hbnd
        have := hbnd b (List.mem_cons_self b rest) bs hbs
        omega
    · rw [if_neg hle] at h
      cases hbe : toMinutes b.endT with
      | none =>
        rw [hbe, jsMax_none_right, searchSlots_none_cursor] at h
        exact absurd h (by simp)
      | some be =>
        rw [hbe] at h
        have h' : searchSlots dur (some oe) (some (max c be)) rest = some na := by
          simpa [jsMax] using h
        obtain ⟨cs, hcs1, hcs2, hcs3, hcs4⟩ := ih (max c be) na htail h'
        refine ⟨cs, by omega, hcs2, ?_, ?_⟩
        · intro x hx
          rcases List.mem_cons.mp hx with rfl | hx
          · have : ¬ cs < be := by omega
            simp [overlaps, hbe, nanLt, this]
          · exact hcs3 x hx
        · intro hbnd
          exact hcs4 fun x hx v hv => hbnd x (List.mem_cons_of_mem b hx) v hv

/-! ## The search loop agrees with the first-fit description -/

theorem searchSlots_eq_firstFit (dur oe : Nat) (day : List Booking) :
    ∀ c : Nat,
      (∀ b ∈ day, ∃ bs be, toMinutes b.start = some bs ∧ toMinutes b.endT = some be) →
      searchSlots dur (some oe) (some c) day =
        (firstFitSpec dur oe c (day.map bookingPair)).map
          (fun p => (⟨fmt p.1, fmt p.2⟩ : NextAvail)) := by
  induction day with
  | nil =>
    intro c _
    simp only [searchSlots, firstFitSpec, List.map_nil, Option.map_some']
    by_cases h : c + dur ≤ oe
    · rw [if_pos (by simp [nanLe, h]), if_pos h]; rfl
    · rw [if_neg (by simp [nanLe, h]), if_neg h]; rfl
  | cons b rest ih =>
    intro c hwf
    obtain ⟨bs, be, hbs, hbe⟩ := hwf b (List.mem_cons_self b rest)
    have hpair : bookingPair b = (bs, be) := by simp [bookingPair, hbs, hbe]
    simp only [searchSlots, firstFitSpec, List.map_cons, hpair, Option.map_some', hbs, hbe]
    by_cases h : c + dur ≤ bs
    · rw [if_pos (by simp [nanLe, h]), if_pos h]; rfl
    · rw [if_neg (by simp [nanLe, h]), if_neg h]
      have : jsMax (some c) (some be) = some (max c be) := rfl
      rw [this]
      exact ih (max c be) fun x hx => hwf x (List.mem_cons_of_mem b hx)

/-! ## The engine never produces a 400 outcome -/

theorem checkCore_ne_badRequest (fac : Facility) (fid date stime : JsStr) (dur : Nat)
    (msg : JsStr) : checkCore fac fid date stime dur ≠ Outcome.badRequest msg := by
  simp only [checkCore]
  split
  · simp
  · split <;> simp

/-- Any 400 outcome of the duration stage carries the duration message. -/
theorem checkWithDur_badRequest_msg (facs : Registry) (fid date stime : JsStr)
    (du : RawDur) (m : JsStr)
    (h : checkWithDur facs fid date stime du = Outcome.badRequest m) :
    m = str "durationMinutes must be integer ≥ 30" := by
  cases du with
  | notInt =>
    simp only [checkWithDur] at h
    injection h with h
    exact h.symm
  | int n =>
    simp only [checkWithDur] at h
    split at h
    · injection h with h
      exact h.symm
    · split at h
      · exact absurd h (by simp)
      · exact absurd h (checkCore_ne_badRequest _ _ _ _ _ _)

/-- Any 400 outcome of the start-time stage carries the start-time or the
duration message. -/
theorem checkWithTime_badRequest_msg (facs : Registry) (fid date : JsStr)
    (stO : Option JsStr) (du : RawDur) (m : JsStr)
    (h : checkWithTime facs fid date stO du = Outcome.badRequest m) :
    m = str "startTime must be HH:MM" ∨
      m = str "durationMinutes must be integer ≥ 30" := by
  cases stO with
  | none =>
    simp only [checkWithTime] at h
    injection h with h
    exact Or.inl h.symm
  | some stime =>
    simp only [checkWithTime] at h
    split at h
    · injection h with h
      exact Or.inl h.symm
    · exact Or.inr (checkWithDur_badRequest_msg facs fid date stime du m h)

/-- Under a present, nonempty facility id the handler is the date stage. -/
theorem checkHandler_some (facs : Registry) (b : RawBody) (fid : JsStr)
    (hf : b.facilityId = some fid) (hne : fid ≠ []) :
    checkHandler facs b =
      checkWithDate facs fid b.date b.startTime b.durationMinutes := by
  unfold checkHandler
  rw [hf]
  dsimp only
  rw [if_neg hne]

/-- The duration stage rejects with the duration message exactly when the
raw duration is not an integer ≥ 30. -/
theorem checkWithDur_durMsg_iff (facs : Registry) (fid date stime : JsStr)
    (du : RawDur) :
    (checkWithDur facs fid date stime du =
        Outcome.badRequest (str "durationMinutes must be integer ≥ 30")) ↔
      ¬ ∃ n : Int, du = RawDur.int n ∧ 30 ≤ n := by
  cases du with
  | notInt =>
    refine iff_of_true rfl ?_
    rintro ⟨n, hn, _⟩
    exact RawDur.noConfusion hn
  | int n =>
    dsimp only [checkWithDur]
    by_cases h30 : n < 30
    · rw [if_pos h30]
      refine iff_of_true rfl ?_
      rintro ⟨m, hm, hm30⟩
      injection hm with hm
      omega
    · rw [if_neg h30]
      refine iff_of_false ?_ ?_
      · cases hfo : facilityOf facs fid with
        | none => simp
        | some fac =>
          dsimp only
          exact checkCore_ne_badRequest fac fid date stime n.toNat _
      · intro hcon
        exact hcon ⟨n, rfl, by omega⟩

/-! ## Claim C1 -/

/-- Claim C1: for a validated request whose interval lies inside the parsed
open hours, the response reports `isAvailable = false` iff some booking of
that date strictly overlaps the requested interval
(`startTime < b.end` and `b.start < end`); an interval that merely abuts a
booking fails those strict inequalities, and when no booking overlaps,
`isAvailable = true` and neither `conflict` nor `nextAvailable` is present. -/
theorem C1_conflict_iff_strict_overlap (fac : Facility) (fid date stime : JsStr)
    (dur os oe s : Nat)
    (hos : toMinutes fac.openStart = some os) (hoe : toMinutes fac.openEnd = some oe)
    (hst : toMinutes stime = some s) (h1 : os ≤ s) (h2 : s + dur ≤ oe) :
    ∃ resp, checkCore fac fid date stime dur = Outcome.ok resp ∧
      (resp.isAvailable = false ↔
        ∃ b ∈ dayBookingsOf fac date, ∃ bs be,
          toMinutes b.start = some bs ∧ toMinutes b.endT = some be ∧
          s < be ∧ bs < s + dur) ∧
      (resp.isAvailable = true → resp.conflict = none ∧ resp.nextAvailable = none) := by
  rw [checkCore_in_hours fac fid date stime dur os oe s hos hoe hst h1 h2]
  cases hfind : (dayBookingsOf fac date).find?
      (fun b => overlaps (some s) (some (s + dur)) (toMinutes b.start) (toMinutes b.endT)) with
  | none =>
    refine ⟨_, rfl, ?_, fun _ => ⟨rfl, rfl⟩⟩
    constructor
    · intro h; exact absurd h (by simp)
    · rintro ⟨b, hb, bs, be, hbs, hbe, hl1, hl2⟩
      have hnone := List.find?_eq_none.mp hfind b hb
      rw [hbs, hbe] at hnone
      exact (hnone (by simp [overlaps, nanLt, hl1, hl2])).elim
  | some cb =>
    refine ⟨_, rfl, ?_, fun h => absurd h (by simp)⟩
    constructor
    · intro _
      have hp := List.find?_some hfind
      have hmem := List.mem_of_find?_eq_some hfind
      cases hbs : toMinutes cb.start with
      | none => rw [hbs] at hp; simp [overlaps, nanLt_none_left] at hp
      | some bs =>
        cases hbe : toMinutes cb.endT with
        | none => rw [hbe] at hp; simp [overlaps, nanLt_none_right] at hp
        | some be =>
          rw [hbs, hbe] at hp
          simp only [overlaps, nanLt, Bool.and_eq_true, decide_eq_true_eq] at hp
          exact ⟨cb, hmem, bs, be, hbs, hbe, hp.1, hp.2⟩
    · intro _; rfl

/-- Witness for claim C1 at the seeded facility: request 10:00-10:30 on
2025-10-10 against the stored booking 10:00-11:30. -/
theorem C1_witness :
    ∃ resp, checkCore sportsplex (str "courtify-sportsplex") (str "2025-10-10")
        (str "10:00") 30 = Outcome.ok resp ∧
      (resp.isAvailable = false ↔
        ∃ b ∈ dayBookingsOf sportsplex (str "2025-10-10"), ∃ bs be,
          toMinutes b.start = some bs ∧ toMinutes b.endT = some be ∧
          600 < be ∧ bs < 600 + 30) ∧
      (resp.isAvailable = true → resp.conflict = none ∧ resp.nextAvailable = none) :=
  C1_conflict_iff_strict_overlap sportsplex (str "courtify-sportsplex")
    (str "2025-10-10") (str "10:00") 30 480 1320 600
    (by decide) (by decide) (by decide) (by decide) (by decide)

/-! ## Claim C2 -/

/-- Claim C2: when a conflict is found, the `nextAvailable` field equals the
first-fit search over the day's bookings sorted ascending by start time,
with cursor starting at `max(startTime, openStart)`, returning the first gap
that fits, else the tail slot before closing, else nothing (omitted). -/
theorem C2_next_available_first_fit (fac : Facility) (fid date stime : JsStr)
    (dur os oe s : Nat) (resp : CheckResponse)
    (hos : toMinutes fac.openStart = some os) (hoe : toMinutes fac.openEnd = some oe)
    (hst : toMinutes stime = some s) (h1 : os ≤ s) (h2 : s + dur ≤ oe)
    (hwf : ∀ b ∈ dayBookingsOf fac date, ∃ bs be,
      toMinutes b.start = some bs ∧ toMinutes b.endT = some be)
    (hok : checkCore fac fid date stime dur = Outcome.ok resp)
    (hconf : resp.isAvailable = false) :
    resp.nextAvailable =
      (firstFitSpec dur oe (max s os)
          ((sortedBookings (dayBookingsOf fac date)).map bookingPair)).map
        (fun p => (⟨fmt p.1, fmt p.2⟩ : NextAvail)) := by
  rw [checkCore_in_hours fac fid date stime dur os oe s hos hoe hst h1 h2] at hok
  split at hok
  · injection hok with hok
    rw [← hok] at hconf
    exact absurd hconf (by simp)
  · injection hok with hok
    subst hok
    exact searchSlots_eq_firstFit dur oe (sortedBookings (dayBookingsOf fac date))
      (max s os) fun b hb => hwf b ((mem_sortedBookings _ _).mp hb)

/-- Witness for claim C2 at the seeded facility: conflicting request
10:00-10:30 on 2025-10-10; the first-fit value is `some (690, 720)`,
rendered 11:30-12:00. -/
theorem C2_witness :
    (Outcome.ok ⟨str "courtify-sportsplex", str "2025-10-10", str "10:00", str "10:30",
        false, some ⟨str "10:00", str "11:30"⟩,
        some ⟨str "11:30", str "12:00"⟩⟩ : Outcome) =
      Outcome.ok ⟨str "courtify-sportsplex", str "2025-10-10", str "10:00", str "10:30",
        false, some ⟨str "10:00", str "11:30"⟩,
        (firstFitSpec 30 1320 (max 600 480)
            ((sortedBookings (dayBookingsOf sportsplex (str "2025-10-10"))).map
              bookingPair)).map
          (fun p => (⟨fmt p.1, fmt p.2⟩ : NextAvail))⟩ := by
  have h := C2_next_available_first_fit sportsplex (str "courtify-sportsplex")
    (str "2025-10-10") (str "10:00") 30 480 1320 600
    ⟨str "courtify-sportsplex", str "2025-10-10", str "10:00", str "10:30",
      false, some ⟨str "10:00", str "11:30"⟩, some ⟨str "11:30", str "12:00"⟩⟩
    (by decide) (by decide) (by decide) (by decide) (by decide)
    (by
      intro b hb
      have hday : dayBookingsOf sportsplex (str "2025-10-10") =
          [⟨str "10:00", str "11:30"⟩] := by decide
      rw [hday, List.mem_singleton] at hb
      subst hb
      exact ⟨600, 690, by decide, by decide⟩)
    (by decide) rfl
  rw [← h]

/-! ## Claim C4 -/

/-- Counterexample to claim C4: a facility whose day list stores
10:00-11:00 before 09:00-11:00; the request 09:30-10:30 conflicts with both,
the response's `conflict` is the stored-order first (10:00-11:00), while the
first conflicting booking in ascending-start order is 09:00-11:00. -/
theorem C4_counterexample :
    checkCore facilityUnsorted (str "cx") (str "2025-10-12") (str "09:30") 60 =
      Outcome.ok ⟨str "cx", str "2025-10-12", str "09:30", str "10:30", false,
        some ⟨str "10:00", str "11:00"⟩, some ⟨str "11:00", str "12:00"⟩⟩ ∧
    (sortedBookings (dayBookingsOf facilityUnsorted (str "2025-10-12"))).find?
        (fun b => overlaps (some 570) (some 630) (toMinutes b.start) (toMinutes b.endT)) =
      some ⟨str "09:00", str "11:00"⟩ ∧
    (⟨str "10:00", str "11:00"⟩ : Booking) ≠ ⟨str "09:00", str "11:00"⟩ := by
  decide

/-- Claim C4 (amended): when several bookings conflict, the response's
`conflict` field is the first conflicting booking in the STORED order of the
day's booking list (insertion order), not in ascending-start-time order. -/
theorem C4_conflict_first_stored (fac : Facility) (fid date stime : JsStr)
    (dur os oe s : Nat) (resp : CheckResponse)
    (hos : toMinutes fac.openStart = some os) (hoe : toMinutes fac.openEnd = some oe)
    (hst : toMinutes stime = some s) (h1 : os ≤ s) (h2 : s + dur ≤ oe)
    (hok : checkCore fac fid date stime dur = Outcome.ok resp) :
    resp.conflict = (dayBookingsOf fac date).find?
      (fun b => overlaps (some s) (some (s + dur)) (toMinutes b.start) (toMinutes b.endT)) := by
  rw [checkCore_in_hours fac fid date stime dur os oe s hos hoe hst h1 h2] at hok
  split at hok
  case h_1 heq =>
    injection hok with hok
    subst hok
    rw [heq]
  case h_2 c heq =>
    injection hok with hok
    subst hok
    rw [heq]

/-- Witness for the amended claim C4 at the deliberately unsorted facility. -/
theorem C4_witness :
    (⟨str "cx", str "2025-10-12", str "09:30", str "10:30", false,
        some ⟨str "10:00", str "11:00"⟩,
        some ⟨str "11:00", str "12:00"⟩⟩ : CheckResponse).conflict =
      (dayBookingsOf facilityUnsorted (str "2025-10-12")).find?
        (fun b => overlaps (some 570) (some (570 + 60))
          (toMinutes b.start) (toMinutes b.endT)) :=
  C4_conflict_first_stored facilityUnsorted (str "cx") (str "2025-10-12")
    (str "09:30") 60 480 1320 570 _ (by decide) (by decide) (by decide)
    (by decide) (by decide) (by decide)

/-! ## Claim C3 -/

/-- Counterexample to claim C3: at `facilityLateBooking` (open 08:00-22:00,
bookings 09:00-21:30 and 23:00-23:30) the conflicting request 09:00-10:00
receives `nextAvailable = 21:30-22:30`, whose end (1350 minutes) lies past
closing time (1320 minutes) — the suggested slot is NOT inside open hours. -/
theorem C3_counterexample :
    checkCore facilityLateBooking (str "cx") (str "2025-10-12") (str "09:00") 60 =
      Outcome.ok ⟨str "cx", str "2025-10-12", str "09:00", str "10:00", false,
        some ⟨str "09:00", str "21:30"⟩, some ⟨str "21:30", str "22:30"⟩⟩ ∧
    toMinutes facilityLateBooking.openEnd = some 1320 ∧
    toMinutes (str "22:30") = some 1350 ∧ ¬(1350 ≤ 1320) := by
  decide

/-- Claim C3 (amended): whenever the response carries a `nextAvailable` slot,
that slot strictly overlaps no booking of the date and starts no earlier than
opening time; it also ends no later than closing time PROVIDED every booking
of that date starts no later than closing time (without that proviso the
slot can extend past closing, see the counterexample). -/
theorem C3_next_available_amended (fac : Facility) (fid date stime : JsStr)
    (dur os oe : Nat) (resp : CheckResponse) (na : NextAvail)
    (hos : toMinutes fac.openStart = some os) (hoe : toMinutes fac.openEnd = some oe)
    (hok : checkCore fac fid date stime dur = Outcome.ok resp)
    (hna : resp.nextAvailable = some na) :
    ∃ cs, na = ⟨fmt cs, fmt (cs + dur)⟩ ∧ os ≤ cs ∧
      (∀ b ∈ dayBookingsOf fac date,
        overlaps (some cs) (some (cs + dur)) (toMinutes b.start) (toMinutes b.endT) = false) ∧
      ((∀ b ∈ dayBookingsOf fac date, ∀ v, toMinutes b.start = some v → v ≤ oe) →
        cs + dur ≤ oe) := by
  simp only [checkCore] at hok
  split at hok
  · exact absurd hok (by simp)
  · split at hok
    · injection hok with hok
      subst hok
      exact absurd hna (by simp)
    case h_2 c heq =>
      injection hok with hok
      subst hok
      dsimp only at hna
      have hp := List.find?_some heq
      rw [overlaps, Bool.and_eq_true] at hp
      obtain ⟨a, be', ha, _, _⟩ := (nanLt_eq_true_iff _ _).mp hp.1
      rw [ha, hos, hoe] at hna
      have hmax : jsMax (some a) (some os) = some (max a os) := rfl
      rw [hmax] at hna
      obtain ⟨cs, hge, hna2, hov, hbound⟩ :=
        searchSlots_sound dur oe (sortedBookings (dayBookingsOf fac date))
          (max a os) na (sortedBookings_pairwise _) hna
      refine ⟨cs, hna2, by omega, ?_, ?_⟩
      · intro b hb
        exact hov b ((mem_sortedBookings _ _).mpr hb)
      · intro hbnd
        exact hbound fun b hb v hv => hbnd b ((mem_sortedBookings _ _).mp hb) v hv

/-- Witness for the amended claim C3 at the seeded facility: the conflicting
request 10:00-10:30 on 2025-10-10 gets `nextAvailable = 11:30-12:00`. -/
theorem C3_witness :
    ∃ cs, (⟨str "11:30", str "12:00"⟩ : NextAvail) = ⟨fmt cs, fmt (cs + 30)⟩ ∧
      480 ≤ cs ∧
      (∀ b ∈ dayBookingsOf sportsplex (str "2025-10-10"),
        overlaps (some cs) (some (cs + 30)) (toMinutes b.start) (toMinutes b.endT) = false) ∧
      ((∀ b ∈ dayBookingsOf sportsplex (str "2025-10-10"), ∀ v,
          toMinutes b.start = some v → v ≤ 1320) → cs + 30 ≤ 1320) :=
  C3_next_available_amended sportsplex (str "courtify-sportsplex") (str "2025-10-10")
    (str "10:00") 30 480 1320
    ⟨str "courtify-sportsplex", str "2025-10-10", str "10:00", str "10:30",
      false, some ⟨str "10:00", str "11:30"⟩, some ⟨str "11:30", str "12:00"⟩⟩
    ⟨str "11:30", str "12:00"⟩
    (by decide) (by decide) (by decide) rfl

/-! ## Claim C5 -/

/-- Counterexample to claim C5: `2025-13-99` matches the `YYYY-MM-DD` digit
pattern but is no real calendar date, yet the request is NOT rejected with
the date error — it sails through and even reports availability. -/
theorem C5_counterexample :
    isValidDate (str "2025-13-99") = true ∧
    isRealCalendarDate (str "2025-13-99") = false ∧
    checkHandler facilities ⟨some (str "courtify-sportsplex"), some (str "2025-13-99"),
        some (str "09:00"), RawDur.int 60, []⟩ =
      Outcome.ok ⟨str "courtify-sportsplex", str "2025-13-99", str "09:00", str "10:00",
        true, none, none⟩ := by
  decide

/-- Claim C5 (amended): validation rejects with the date error exactly when
the `date` field is missing or fails the `YYYY-MM-DD` digit pattern; no
calendar-validity check is performed, so dates like month 13 or day 99 pass. -/
theorem C5_date_pattern_only (facs : Registry) (b : RawBody) (fid : JsStr)
    (hf : b.facilityId = some fid) (hne : fid ≠ []) :
    (checkHandler facs b = Outcome.badRequest (str "date must be YYYY-MM-DD")) ↔
      (b.date = none ∨ ∃ d, b.date = some d ∧ isValidDate d = false) := by
  rw [checkHandler_some facs b fid hf hne]
  cases hd : b.date with
  | none => simp [checkWithDate]
  | some d =>
    dsimp only [checkWithDate]
    by_cases hv : isValidDate d = true
    · rw [if_neg (by simp [hv])]
      refine iff_of_false ?_ ?_
      · intro h
        rcases checkWithTime_badRequest_msg facs fid d b.startTime
            b.durationMinutes _ h with hm | hm
        · exact absurd hm (by decide)
        · exact absurd hm (by decide)
      · rintro (h | ⟨d', hd', hv'⟩)
        · exact Option.noConfusion h
        · injection hd' with hd'
          subst hd'
          rw [hv] at hv'
          exact Bool.noConfusion hv'
    · rw [if_pos (by simp [hv])]
      exact iff_of_true rfl (Or.inr ⟨d, rfl, by simpa using hv⟩)

/-- Witness for the amended claim C5: with a valid facility id, the malformed
date `13:99` (wrong pattern) is rejected with the date error. -/
theorem C5_witness :
    (checkHandler facilities ⟨some (str "courtify-sportsplex"), some (str "13:99"),
        some (str "09:00"), RawDur.int 60, []⟩ =
      Outcome.badRequest (str "date must be YYYY-MM-DD")) ↔
      ((some (str "13:99") : Option JsStr) = none ∨
        ∃ d, (some (str "13:99") : Option JsStr) = some d ∧ isValidDate d = false) :=
  C5_date_pattern_only facilities
    ⟨some (str "courtify-sportsplex"), some (str "13:99"),
      some (str "09:00"), RawDur.int 60, []⟩
    (str "courtify-sportsplex") rfl (by decide)

/-! ## Claim C6 -/

/-- Claim C6: with the open hours stored as valid HH:MM strings, the engine
fails with the out-of-hours outcome iff `startTime < openStart` or
`startTime + durationMinutes > openEnd`, and the failure message carries the
resource's open window bounds verbatim. -/
theorem C6_out_of_hours_iff (fac : Facility) (fid date stime : JsStr)
    (dur os oe s : Nat)
    (_hvs : isValidTime fac.openStart = true) (_hve : isValidTime fac.openEnd = true)
    (hos : toMinutes fac.openStart = some os) (hoe : toMinutes fac.openEnd = some oe)
    (hst : toMinutes stime = some s) :
    (checkCore fac fid date stime dur =
        Outcome.unprocessable (str "Requested time outside open hours " ++
          fac.openStart ++ str "-" ++ fac.openEnd)) ↔
      (s < os ∨ oe < s + dur) := by
  simp only [checkCore, hos, hoe, hst, Option.map_some']
  by_cases h : s < os ∨ oe < s + dur
  · rw [if_pos (by simp [nanLt]; omega)]
    exact iff_of_true rfl h
  · rw [if_neg (by simp [nanLt]; omega)]
    refine iff_of_false ?_ h
    split <;> simp

/-- Witness for claim C6 — spec scenario C: request start 07:00 against the
seeded 08:00-22:00 window is out of hours, message citing `08:00-22:00`. -/
theorem C6_witness :
    (checkCore sportsplex (str "courtify-sportsplex") (str "2025-10-10")
        (str "07:00") 60 =
      Outcome.unprocessable (str "Requested time outside open hours " ++
        sportsplex.openStart ++ str "-" ++ sportsplex.openEnd)) ↔
      (420 < 480 ∨ 1320 < 420 + 60) :=
  C6_out_of_hours_iff sportsplex (str "courtify-sportsplex") (str "2025-10-10")
    (str "07:00") 60 480 1320 420
    (by decide) (by decide) (by decide) (by decide) (by decide)

/-! ## Claim C7 -/

/-- Claim C7: after the earlier fields validate, the request is rejected with
the duration error exactly when `durationMinutes` is not an integer ≥ 30 —
so 30 is accepted, 29 is rejected, and the engine imposes no further
slot-granularity restriction. -/
theorem C7_duration_iff (facs : Registry) (b : RawBody) (fid d st : JsStr)
    (hf : b.facilityId = some fid) (hne : fid ≠ [])
    (hd : b.date = some d) (hdv : isValidDate d = true)
    (hs : b.startTime = some st) (hsv : isValidTime st = true) :
    (checkHandler facs b = Outcome.badRequest (str "durationMinutes must be integer ≥ 30")) ↔
      ¬ ∃ n : Int, b.durationMinutes = RawDur.int n ∧ 30 ≤ n := by
  rw [checkHandler_some facs b fid hf hne, hd]
  dsimp only [checkWithDate]
  rw [if_neg (by simp [hdv]), hs]
  dsimp only [checkWithTime]
  rw [if_neg (by simp [hsv])]
  exact checkWithDur_durMsg_iff facs fid d st b.durationMinutes

/-- Witness for claim C7: duration 29 is rejected with the duration error
and duration 30 is not. -/
theorem C7_witness :
    (checkHandler facilities ⟨some (str "courtify-sportsplex"), some (str "2025-10-10"),
        some (str "09:00"), RawDur.int 29, []⟩ =
      Outcome.badRequest (str "durationMinutes must be integer ≥ 30")) ∧
    ¬ (checkHandler facilities ⟨some (str "courtify-sportsplex"), some (str "2025-10-10"),
        some (str "09:00"), RawDur.int 30, []⟩ =
      Outcome.badRequest (str "durationMinutes must be integer ≥ 30")) := by
  constructor
  · exact (C7_duration_iff facilities
      ⟨some (str "courtify-sportsplex"), some (str "2025-10-10"),
        some (str "09:00"), RawDur.int 29, []⟩
      (str "courtify-sportsplex") (str "2025-10-10") (str "09:00")
      rfl (by decide) rfl (by decide) rfl (by decide)).mpr
      (by rintro ⟨n, hn, h30⟩; injection hn with hn; omega)
  · intro h
    exact ((C7_duration_iff facilities
      ⟨some (str "courtify-sportsplex"), some (str "2025-10-10"),
        some (str "09:00"), RawDur.int 30, []⟩
      (str "courtify-sportsplex") (str "2025-10-10") (str "09:00")
      rfl (by decide) rfl (by decide) rfl (by decide)).mp h) ⟨30, rfl, by omega⟩

/-! ## Claim C8 -/

/-- Claim C8: two request bodies that agree on `facilityId`, `date`,
`startTime` and `durationMinutes` produce the same outcome whatever their
other fields hold — the handler's destructuring never reads them. -/
theorem C8_unknown_fields_ignored (facs : Registry) (b1 b2 : RawBody)
    (h1 : b1.facilityId = b2.facilityId) (h2 : b1.date = b2.date)
    (h3 : b1.startTime = b2.startTime) (h4 : b1.durationMinutes = b2.durationMinutes) :
    checkHandler facs b1 = checkHandler facs b2 := by
  unfold checkHandler
  rw [h1, h2, h3, h4]

/-- Witness for claim C8: adding an unknown `isAvailable` field to the body
does not change the outcome. -/
theorem C8_witness :
    checkHandler facilities ⟨some (str "courtify-sportsplex"), some (str "2025-10-10"),
        some (str "09:00"), RawDur.int 60, []⟩ =
      checkHandler facilities ⟨some (str "courtify-sportsplex"), some (str "2025-10-10"),
        some (str "09:00"), RawDur.int 60,
        [(str "isAvailable", str "yes"), (str "hacker", str "1")]⟩ :=
  C8_unknown_fields_ignored facilities
    ⟨some (str "courtify-sportsplex"), some (str "2025-10-10"),
      some (str "09:00"), RawDur.int 60, []⟩
    ⟨some (str "courtify-sportsplex"), some (str "2025-10-10"),
      some (str "09:00"), RawDur.int 60,
      [(str "isAvailable", str "yes"), (str "hacker", str "1")]⟩
    rfl rfl rfl rfl

/-! ## Claim C9 -/

/-- Claim C9: an availability check leaves the registry — hence every stored
booking list and its element order — unchanged (the source sorts only a
`slice()` copy and never assigns into `facilities`), so repeating the same
request against the resulting state yields the identical response. -/
theorem C9_registry_unchanged (facs : Registry) (b : RawBody) :
    (checkApp facs b).1 = facs ∧
    (∀ fid, facilityOf (checkApp facs b).1 fid = facilityOf facs fid) ∧
    (checkApp (checkApp facs b).1 b).2 = (checkApp facs b).2 :=
  ⟨rfl, fun _ => rfl, rfl⟩

/-! ## Claim C10 -/

/-- Claim C10: `toMinutes` and `fmt` are mutually inverse on their valid
domains — `toMinutes (fmt m) = m` for every minute count `m ≤ 1439`, and
`fmt (toMinutes s) = s` for every valid two-digit `HH:MM` string. -/
theorem C10_minutes_fmt_inverse :
    (∀ m : Nat, m ≤ 1439 → toMinutes (fmt m) = some m) ∧
    (∀ s : JsStr, isValidTime s = true → (toMinutes s).map fmt = some s) :=
  ⟨toMinutes_fmt, fmt_toMinutes⟩

/-- Witness for claim C10 at 09:30 / 570 minutes. -/
theorem C10_witness :
    toMinutes (fmt 570) = some 570 ∧
    (toMinutes (str "09:30")).map fmt = some (str "09:30") :=
  ⟨C10_minutes_fmt_inverse.1 570 (by omega),
   C10_minutes_fmt_inverse.2 (str "09:30") (by decide)⟩
